import Mathlib

/-!
Shallow embedding of `src/lib/namespace.ts` (class `Namespace` of the
socket.io server core), together with a broadcast-operator model taken from
the specification (the file `broadcast-operator.ts` is not part of the
sources in scope; only its use sites in `namespace.ts` are).

Conventions of the embedding:
  * JavaScript values that may flow into `ExtendedError.data` are modelled
    by `JSVal`, with JS truthiness (`JSVal.truthy`); `undefined` is `none`
    at the `Option JSVal` layer.
  * The `Map<SocketId, Socket>` field `sockets` is modelled as an
    association list with unique keys; `Map.prototype.set` replaces an
    existing binding and `Map.prototype.delete` removes it.
  * A middleware (`(socket, next) => void`) is modelled as a function that,
    when executed, invokes its continuation exactly once, yielding an
    optional error, and may call `use` during its execution; the list of
    functions it pushes via `use` is returned alongside the error.
  * `_add` is modelled as a pure transition producing the new namespace
    state, the list of middleware that actually executed, and the ordered
    list of observable events of the post-pipeline callback.
-/

/-- A small model of JavaScript runtime values (enough for `data?: any`). -/
inductive JSVal where
  | str (s : String)
  | num (n : Int)
  | jbool (b : Bool)
  | null
  deriving DecidableEq, Repr

/-- JavaScript truthiness of a `JSVal`. -/
def JSVal.truthy : JSVal → Bool
  | .str s => s ≠ ""
  | .num n => n ≠ 0
  | .jbool b => b
  | .null => false

/-- `a || b` of JavaScript for an optional left operand (`undefined` = `none`). -/
def jsOr (a : Option JSVal) (b : JSVal) : JSVal :=
  match a with
  | some v => if v.truthy then v else b
  | none => b

/-- `interface ExtendedError extends Error { data?: any }` (namespace.ts). -/
structure ExtendedError where
  message : String
  data : Option JSVal
  deriving DecidableEq, Repr

abbrev SocketId := String
abbrev Room := String

/-- The per-connection session object; only its identity is in scope
(`new Socket(this, client, query)` lives in the excluded endpoint layer). -/
structure SocketV where
  id : SocketId
  deriving DecidableEq, Repr

/-- The transport-level client connection, as read by `_add`:
`client.conn.readyState` and `client.conn.protocol`. -/
structure ClientConn where
  readyState : String
  protocol : Nat
  deriving DecidableEq, Repr

/-- A middleware of `_fns`: executing it on a socket invokes its
continuation once with an optional error, and additionally returns the
middleware functions it registered via `use` while running. -/
inductive Middleware where
  | mk (f : SocketV → Option ExtendedError × List Middleware)

/-- Execute one middleware on a socket. -/
def Middleware.app (m : Middleware) (s : SocketV) : Option ExtendedError × List Middleware :=
  match m with | .mk f => f s

/-- The adapter, seen through the contract of spec section 4.3: the set of
endpoints of the namespace and the room-membership tables. -/
structure Adapter where
  nspSockets : Finset SocketId
  roomMembers : Room → Finset SocketId

/-- Broadcast flags (`volatile`, `local`, `compress`). -/
structure Flags where
  volatile : Bool := false
  localFlag : Bool := false
  compress : Option Bool := none
  deriving DecidableEq, Repr

/-- Modelled from the spec: `broadcast-operator.ts` is not among the
sources in scope. Spec section 4.2: an immutable builder over
`rooms, exceptRooms, flags`, bound to one adapter. -/
structure BroadcastOperator where
  adapter : Adapter
  rooms : Finset Room := ∅
  exceptRooms : Finset Room := ∅
  flags : Flags := {}

/-- `new BroadcastOperator(adapter)`: fresh operator, empty targeting state. -/
def BroadcastOperator.fresh (a : Adapter) : BroadcastOperator :=
  { adapter := a }

/-- Modelled from the spec: `to(room|room[])` unions the given label(s)
into `rooms` and returns a new operator. -/
def BroadcastOperator.to (op : BroadcastOperator) (rs : List Room) : BroadcastOperator :=
  { op with rooms := op.rooms ∪ rs.toFinset }

/-- Modelled from the spec: `in` is a synonym of `to` (spec section 4.2). -/
def BroadcastOperator.inRooms (op : BroadcastOperator) (rs : List Room) : BroadcastOperator :=
  op.to rs

/-- Modelled from the spec: `except(room|room[])` unions the given label(s)
into `exceptRooms` and returns a new operator. -/
def BroadcastOperator.except (op : BroadcastOperator) (rs : List Room) : BroadcastOperator :=
  { op with exceptRooms := op.exceptRooms ∪ rs.toFinset }

/-- Modelled from the spec: `compress(bool)` sets the compress flag on a
new operator. -/
def BroadcastOperator.compress (op : BroadcastOperator) (b : Bool) : BroadcastOperator :=
  { op with flags := { op.flags with compress := some b } }

/-- Modelled from the spec: the `volatile` property sets the volatile flag
on a new operator. -/
def BroadcastOperator.volatile (op : BroadcastOperator) : BroadcastOperator :=
  { op with flags := { op.flags with volatile := true } }

/-- Modelled from the spec: the `local` property sets the local flag on a
new operator. -/
def BroadcastOperator.localOp (op : BroadcastOperator) : BroadcastOperator :=
  { op with flags := { op.flags with localFlag := true } }

/-- Modelled from the spec: targeting resolution semantics (spec section
4.2): matching endpoints are members of any room in `rooms` (all endpoints
of the namespace when `rooms` is empty) and members of none of the rooms
in `exceptRooms`; exclusion wins over inclusion. -/
def BroadcastOperator.matched (op : BroadcastOperator) : Finset SocketId :=
  (if op.rooms = ∅ then op.adapter.nspSockets
   else op.rooms.biUnion op.adapter.roomMembers) \
    op.exceptRooms.biUnion op.adapter.roomMembers

/-- The reserved event names of the spec (sections 4.2 and 7). -/
def RESERVED_EVENTS : List String :=
  ["connect", "connecting", "connection", "disconnect", "disconnecting",
   "newListener", "removeListener"]

/-- A call observed at the broadcast primitive of the adapter. -/
structure BroadcastCall where
  ev : String
  args : List JSVal
  rooms : Finset Room
  exceptRooms : Finset Room
  flags : Flags

/-- Modelled from the spec: `emit` of the broadcast operator rejects
reserved event names before reaching the adapter (error signalled to the
caller), otherwise resolves the intent via the broadcast
primitive of the adapter and returns the success indicator `true` (not delivery
confirmation). -/
def BroadcastOperator.emitOp (op : BroadcastOperator) (ev : String) (args : List JSVal) :
    Except String (Bool × List BroadcastCall) :=
  if ev ∈ RESERVED_EVENTS then
    Except.error (ev ++ " is a reserved event name")
  else
    Except.ok (true, [⟨ev, args, op.rooms, op.exceptRooms, op.flags⟩])

/-- The namespace state: `sockets` (the endpoints mapping), the middleware
chain `_fns`, and the owned adapter. -/
structure NamespaceState where
  sockets : List (SocketId × SocketV)
  fns : List Middleware
  adapter : Adapter

/-- `Map.prototype.has` on the endpoints mapping. -/
def hasId (l : List (SocketId × SocketV)) (id : SocketId) : Bool :=
  l.any (fun p => p.1 = id)

/-- `Map.prototype.set` on the endpoints mapping: replace the binding when
the key is present, append it otherwise. -/
def mapSet (l : List (SocketId × SocketV)) (id : SocketId) (v : SocketV) :
    List (SocketId × SocketV) :=
  if hasId l id then l.map (fun p => if p.1 = id then (id, v) else p) else l ++ [(id, v)]

/-- `Map.prototype.delete` on the endpoints mapping: keys of a JS `Map` are
unique, so deleting the key removes exactly its binding. -/
def mapDelete (l : List (SocketId × SocketV)) (id : SocketId) :
    List (SocketId × SocketV) :=
  l.filter (fun p => p.1 ≠ id)

/-- `use(fn)` (namespace.ts line 71): appends `fn` to `_fns`. -/
def NamespaceState.use (st : NamespaceState) (fn : Middleware) : NamespaceState :=
  { st with fns := st.fns ++ [fn] }

/-- The middleware execution loop of `run` (namespace.ts lines 89-100),
iterating over the snapshot list: returns the error handed to the final
callback, the middleware that executed (in order), and the functions
registered via `use` during the run. -/
def runFrom (s : SocketV) : List Middleware → Option ExtendedError × List Middleware × List Middleware
  | [] => (none, [], [])
  | m :: rest =>
    match m.app s with
    | (some e, used) => (some e, [m], used)
    | (none, used) =>
      match rest with
      | [] => (none, [m], used)
      | _ :: _ =>
        let r := runFrom s rest
        (r.1, m :: r.2.1, used ++ r.2.2)

/-- `run(socket, fn)` (namespace.ts lines 85-103): snapshots `_fns` via
`slice(0)`, calls back immediately when the snapshot is empty, otherwise
runs the chain from index 0; `use` calls made by running middleware land
on `_fns`, not on the snapshot. -/
def NamespaceState.run (st : NamespaceState) (s : SocketV) :
    Option ExtendedError × List Middleware × NamespaceState :=
  let fns := st.fns
  match fns with
  | [] => (none, [], st)
  | _ :: _ =>
    let r := runFrom s fns
    (r.1, r.2.1, { st with fns := st.fns ++ r.2.2 })

/-- The payload handed to `socket._error`. -/
inductive ErrorPayload where
  | raw (v : JSVal)
  | structured (message : String) (data : Option JSVal)
  deriving DecidableEq, Repr

/-- The observable events of the `_add` post-pipeline callback. -/
inductive AddEvent where
  | errorSent (p : ErrorPayload)
  | registered (id : SocketId)
  | onconnect (id : SocketId)
  | ackCallback
  | emitted (name : String)
  deriving DecidableEq, Repr

/-- `_add(client, query, fn?)` (namespace.ts lines 150-190): constructs the
session, runs the middleware chain, and in the deferred callback checks
`"open" == client.conn.readyState`; on error sends the protocol-dependent
error payload (`err.data || err.message` raw for protocol 3, the
structured `message`/`data` object otherwise); on success registers the
socket, runs `_onconnect`, invokes the optional callback, then emits
`connect` and `connection`. When the transport is no longer open the
callback only logs. Returns the new state, the executed middleware and
the event trace. -/
def NamespaceState.addClient (st : NamespaceState) (client : ClientConn) (sid : SocketId)
    (hasFn : Bool) : NamespaceState × List Middleware × List AddEvent :=
  let socket : SocketV := ⟨sid⟩
  let r := st.run socket
  let err := r.1
  let executed := r.2.1
  let st1 := r.2.2
  if client.readyState = "open" then
    match err with
    | some e =>
      if client.protocol = 3 then
        (st1, executed, [.errorSent (.raw (jsOr e.data (.str e.message)))])
      else
        (st1, executed, [.errorSent (.structured e.message e.data)])
    | none =>
      ({ st1 with sockets := mapSet st1.sockets sid socket }, executed,
        [.registered sid, .onconnect sid]
          ++ (if hasFn then [.ackCallback] else [])
          ++ [.emitted "connect", .emitted "connection"])
  else
    (st1, executed, [])

/-- `_remove(socket)` (namespace.ts lines 197-203): deletes the binding
when present, otherwise only logs. -/
def NamespaceState.removeSocket (st : NamespaceState) (s : SocketV) : NamespaceState :=
  if hasId st.sockets s.id then
    { st with sockets := mapDelete st.sockets s.id }
  else
    st

/-- `emit(ev, ...args)` (namespace.ts lines 211-219): delegates to a fresh
broadcast operator bound to the adapter of the namespace. -/
def NamespaceState.emitNs (st : NamespaceState) (ev : String) (args : List JSVal) :
    Except String (Bool × List BroadcastCall) :=
  (BroadcastOperator.fresh st.adapter).emitOp ev args

/-- `to(room)` (namespace.ts lines 112-116): fresh operator on the
adapter of the namespace, then `to`; the namespace state is untouched. -/
def NamespaceState.toNs (st : NamespaceState) (rs : List Room) :
    NamespaceState × BroadcastOperator :=
  (st, (BroadcastOperator.fresh st.adapter).to rs)

/-- `in(room)` (namespace.ts lines 125-129). -/
def NamespaceState.inNs (st : NamespaceState) (rs : List Room) :
    NamespaceState × BroadcastOperator :=
  (st, (BroadcastOperator.fresh st.adapter).inRooms rs)

/-- `except(room)` (namespace.ts lines 138-142). -/
def NamespaceState.exceptNs (st : NamespaceState) (rs : List Room) :
    NamespaceState × BroadcastOperator :=
  (st, (BroadcastOperator.fresh st.adapter).except rs)

/-- `compress(compress)` (namespace.ts lines 260-264). -/
def NamespaceState.compressNs (st : NamespaceState) (b : Bool) :
    NamespaceState × BroadcastOperator :=
  (st, (BroadcastOperator.fresh st.adapter).compress b)

/-- the `volatile` getter (namespace.ts lines 274-276). -/
def NamespaceState.volatileNs (st : NamespaceState) :
    NamespaceState × BroadcastOperator :=
  (st, (BroadcastOperator.fresh st.adapter).volatile)

/-- the `local` getter (namespace.ts lines 284-286). -/
def NamespaceState.localNs (st : NamespaceState) :
    NamespaceState × BroadcastOperator :=
  (st, (BroadcastOperator.fresh st.adapter).localOp)

/-- One step of a `to`/`in`/`except` chain on a broadcast operator. -/
inductive TargetCall where
  | to (rs : List Room)
  | inn (rs : List Room)
  | except (rs : List Room)

/-- Apply one chaining step. -/
def applyCall (op : BroadcastOperator) : TargetCall → BroadcastOperator
  | .to rs => op.to rs
  | .inn rs => op.inRooms rs
  | .except rs => op.except rs

/-- Apply a whole chain of targeting calls, left to right. -/
def applyCalls (op : BroadcastOperator) : List TargetCall → BroadcastOperator
  | [] => op
  | c :: cs => applyCalls (applyCall op c) cs

/-- Union of the rooms named by the `to`/`in` calls of a chain. -/
def accRooms : List TargetCall → Finset Room
  | [] => ∅
  | .to rs :: cs => rs.toFinset ∪ accRooms cs
  | .inn rs :: cs => rs.toFinset ∪ accRooms cs
  | .except _ :: cs => accRooms cs

/-- Union of the rooms named by the `except` calls of a chain. -/
def accExcept : List TargetCall → Finset Room
  | [] => ∅
  | .to _ :: cs => accExcept cs
  | .inn _ :: cs => accExcept cs
  | .except rs :: cs => rs.toFinset ∪ accExcept cs

/-! ## Lemmas about the middleware loop and the endpoints mapping -/

/-- The middleware that execute form a prefix of the snapshot list. -/
theorem runFrom_executed_take (s : SocketV) (fns : List Middleware) :
    (runFrom s fns).2.1 = fns.take ((runFrom s fns).2.1).length := by
  induction fns with
  | nil => rfl
  | cons m rest ih =>
    rcases hm : m.app s with ⟨err, used⟩
    cases err with
    | some e => simp [runFrom, hm]
    | none =>
      cases rest with
      | nil => simp [runFrom, hm]
      | cons r rest2 =>
        simp only [runFrom, hm]
        simp only [List.length_cons, List.take_succ_cons, List.cons.injEq, true_and]
        exact ih

/-- One step of the loop when the head middleware signals an error. -/
theorem runFrom_cons_err (s : SocketV) (m : Middleware) (rest : List Middleware)
    (e : ExtendedError) (used : List Middleware) (hm : m.app s = (some e, used)) :
    runFrom s (m :: rest) = (some e, [m], used) := by
  conv_lhs => rw [runFrom]
  rw [hm]

/-- One step of the loop when the head middleware proceeds and more
middleware remain. -/
theorem runFrom_cons_ok (s : SocketV) (m r : Middleware) (rest : List Middleware)
    (used : List Middleware) (hm : m.app s = (none, used)) :
    runFrom s (m :: r :: rest) =
      ((runFrom s (r :: rest)).1, m :: (runFrom s (r :: rest)).2.1,
        used ++ (runFrom s (r :: rest)).2.2) := by
  conv_lhs => rw [runFrom]
  rw [hm]

/-- When every middleware before index `k` proceeds and the one at index `k`
signals an error, the loop stops with that error having executed exactly the
first `k + 1` middleware. -/
theorem runFrom_error_at (s : SocketV) (fns : List Middleware) (k : Nat) (e : ExtendedError)
    (hk : k < fns.length)
    (herr : ((fns.get ⟨k, hk⟩).app s).1 = some e)
    (hok : ∀ i (hi : i < k), ((fns.get ⟨i, Nat.lt_trans hi hk⟩).app s).1 = none) :
    (runFrom s fns).1 = some e ∧ (runFrom s fns).2.1 = fns.take (k + 1) := by
  induction fns generalizing k with
  | nil => exact absurd hk (Nat.not_lt_zero k)
  | cons m rest ih =>
    cases k with
    | zero =>
      rcases hm : m.app s with ⟨err, used⟩
      simp only [List.get] at herr
      rw [hm] at herr
      simp only at herr
      subst herr
      rw [runFrom_cons_err s m rest e used hm]
      simp
    | succ k2 =>
      have h0 : (m.app s).1 = none := by
        have := hok 0 (Nat.succ_pos k2)
        simpa using this
      rcases hm : m.app s with ⟨err, used⟩
      rw [hm] at h0
      simp only at h0
      subst h0
      have hk2 : k2 < rest.length := by simpa using hk
      cases rest with
      | nil => exact absurd hk2 (Nat.not_lt_zero k2)
      | cons r rest2 =>
        have herr2 : (((r :: rest2).get ⟨k2, hk2⟩).app s).1 = some e := by
          simpa using herr
        have hok2 : ∀ i (hi : i < k2),
            (((r :: rest2).get ⟨i, Nat.lt_trans hi hk2⟩).app s).1 = none := by
          intro i hi
          have := hok (i + 1) (Nat.succ_lt_succ hi)
          simpa using this
        obtain ⟨ha, hb⟩ := ih k2 hk2 herr2 hok2
        rw [runFrom_cons_ok s m r rest2 used hm]
        exact ⟨ha, by simp [hb]⟩

/-- After `mapSet` the key is present. -/
theorem hasId_mapSet (l : List (SocketId × SocketV)) (id : SocketId) (v : SocketV) :
    hasId (mapSet l id v) id = true := by
  unfold mapSet
  by_cases h : hasId l id
  · rw [if_pos h]
    obtain ⟨p, hp, hpid⟩ := List.any_eq_true.mp h
    simp only [decide_eq_true_eq] at hpid
    refine List.any_eq_true.mpr ⟨(id, v), ?_, by simp⟩
    exact List.mem_map.mpr ⟨p, hp, by simp [hpid]⟩
  · rw [if_neg h]
    simp [hasId]

/-- After `mapDelete` the key is absent. -/
theorem hasId_mapDelete (l : List (SocketId × SocketV)) (id : SocketId) :
    hasId (mapDelete l id) id = false := by
  induction l with
  | nil => rfl
  | cons p rest ih =>
    by_cases h : p.1 = id
    · simp [hasId, mapDelete, List.filter_cons, h] at ih ⊢
    · simp [hasId, mapDelete, List.filter_cons, h] at ih ⊢

/-- The state returned by `run` keeps the endpoints mapping untouched. -/
theorem run_state_sockets (st : NamespaceState) (s : SocketV) :
    (st.run s).2.2.sockets = st.sockets := by
  obtain ⟨so, fns, ad⟩ := st
  cases fns <;> rfl

/-- The state returned by `run` keeps the adapter untouched. -/
theorem run_state_adapter (st : NamespaceState) (s : SocketV) :
    (st.run s).2.2.adapter = st.adapter := by
  obtain ⟨so, fns, ad⟩ := st
  cases fns <;> rfl

/-- The state returned by `run` has the chain extended by exactly the
functions registered via `use` during the run. -/
theorem run_state_fns (st : NamespaceState) (s : SocketV) :
    (st.run s).2.2.fns = st.fns ++ (runFrom s st.fns).2.2 := by
  obtain ⟨so, fns, ad⟩ := st
  cases fns with
  | nil => simp [NamespaceState.run, runFrom]
  | cons m rest => rfl

/-- The middleware executed by `run` are a prefix of the chain as it stood
when the pipeline started. -/
theorem run_executed_take (st : NamespaceState) (s : SocketV) :
    (st.run s).2.1 = st.fns.take ((st.run s).2.1).length := by
  obtain ⟨so, fns, ad⟩ := st
  cases fns with
  | nil => rfl
  | cons m rest => exact runFrom_executed_take s (m :: rest)

/-- A `_remove` for an identifier that is not in the endpoints mapping
returns the state unchanged. -/
theorem removeSocket_absent (st : NamespaceState) (s : SocketV)
    (h : hasId st.sockets s.id = false) : st.removeSocket s = st := by
  simp [NamespaceState.removeSocket, h]

/-! ## Claims -/

/-- C10: for every admission attempt, the middleware executed are exactly
those present in the chain at the moment the pipeline starts (a prefix of
the snapshot, in order); a `use(fn)` call made by a running middleware
appends `fn` to the chain for future admissions (and touches nothing else
of the namespace state) but never causes `fn` to run for the in-flight
admission. -/
theorem run_uses_snapshot (st : NamespaceState) (s : SocketV) :
    (st.run s).2.1 = st.fns.take ((st.run s).2.1).length ∧
    (st.run s).2.2.fns = st.fns ++ (runFrom s st.fns).2.2 ∧
    (st.run s).2.2.sockets = st.sockets ∧
    (st.run s).2.2.adapter = st.adapter :=
  ⟨run_executed_take st s, run_state_fns st s, run_state_sockets st s,
    run_state_adapter st s⟩

/-- C1: when the middleware at index `k` signals an error (all earlier ones
having proceeded), no middleware at an index greater than `k` executes —
exactly the first `k + 1` run — and the endpoint is never added to the
endpoints mapping. -/
theorem middleware_error_short_circuits (st : NamespaceState) (client : ClientConn)
    (sid : SocketId) (hasFn : Bool) (k : Nat) (e : ExtendedError)
    (hk : k < st.fns.length)
    (herr : ((st.fns.get ⟨k, hk⟩).app ⟨sid⟩).1 = some e)
    (hok : ∀ i (hi : i < k), ((st.fns.get ⟨i, Nat.lt_trans hi hk⟩).app ⟨sid⟩).1 = none) :
    (st.addClient client sid hasFn).2.1 = st.fns.take (k + 1) ∧
    (st.addClient client sid hasFn).1.sockets = st.sockets := by
  obtain ⟨so, fns, ad⟩ := st
  simp only at herr hok hk ⊢
  cases fns with
  | nil => exact absurd hk (Nat.not_lt_zero k)
  | cons m rest =>
    obtain ⟨ha, hb⟩ := runFrom_error_at ⟨sid⟩ (m :: rest) k e hk herr hok
    by_cases hr : client.readyState = "open"
    · by_cases hp : client.protocol = 3 <;>
        simp [NamespaceState.addClient, NamespaceState.run, hr, hp, ha, hb]
    · simp [NamespaceState.addClient, NamespaceState.run, hr, ha, hb]

/-- A middleware that proceeds and registers nothing. -/
def mwPass : Middleware := .mk (fun _ => (none, []))

/-- A middleware that signals the error of spec scenario B. -/
def mwFail : Middleware := .mk (fun _ => (some ⟨"auth failed", none⟩, []))

/-- A middleware that signals an error whose data field is present but
falsy (the empty string). -/
def mwFalsy : Middleware := .mk (fun _ => (some ⟨"auth failed", some (JSVal.str "")⟩, []))

/-- A middleware that proceeds after registering one more middleware via
`use`. -/
def mwReg : Middleware := .mk (fun _ => (none, [mwPass]))

/-- An adapter with no endpoints and empty rooms. -/
def adapter0 : Adapter := ⟨∅, fun _ => ∅⟩

/-- A namespace with no middleware. -/
def st0 : NamespaceState := ⟨[], [], adapter0⟩

/-- A namespace whose chain errors at index 1. -/
def stErr : NamespaceState := ⟨[], [mwPass, mwFail, mwPass], adapter0⟩

/-- A namespace with a single always-failing middleware. -/
def stFail : NamespaceState := ⟨[], [mwFail], adapter0⟩

/-- A namespace with a single middleware failing with falsy data. -/
def stFalsy : NamespaceState := ⟨[], [mwFalsy], adapter0⟩

/-- Witness for C1: with three middleware and the one at index 1 erroring,
exactly the first two execute and the endpoints mapping stays empty. -/
theorem middleware_error_short_circuits_witness :
    (stErr.addClient ⟨"open", 4⟩ "s1" false).2.1 = stErr.fns.take 2 ∧
    (stErr.addClient ⟨"open", 4⟩ "s1" false).1.sockets = stErr.sockets :=
  middleware_error_short_circuits stErr ⟨"open", 4⟩ "s1" false 1 ⟨"auth failed", none⟩
    (by decide)
    rfl
    (fun i hi => by
      have h0 : i = 0 := by omega
      subst h0
      rfl)

/-- C2: on a successful admission (no middleware error, transport open) the
observable events are, in this strict order and each exactly once:
registration of the endpoint in the endpoints mapping, the `_onconnect`
transition, the optional caller-supplied callback, the `connect`
notification, the `connection` notification; and the endpoint is indeed
present in the mapping afterwards. -/
theorem successful_admission_order (st : NamespaceState) (client : ClientConn)
    (sid : SocketId) (hasFn : Bool)
    (hopen : client.readyState = "open")
    (hok : (st.run ⟨sid⟩).1 = none) :
    (st.addClient client sid hasFn).2.2 =
      [AddEvent.registered sid, AddEvent.onconnect sid]
        ++ (if hasFn then [AddEvent.ackCallback] else [])
        ++ [AddEvent.emitted "connect", AddEvent.emitted "connection"] ∧
    hasId (st.addClient client sid hasFn).1.sockets sid = true := by
  constructor
  · simp [NamespaceState.addClient, hopen, hok]
  · simp [NamespaceState.addClient, hopen, hok, hasId_mapSet]

/-- Witness for C2: a namespace without middleware accepts a connecting
endpoint with the full ordered event sequence. -/
theorem successful_admission_order_witness :
    (st0.addClient ⟨"open", 4⟩ "s1" true).2.2 =
      [AddEvent.registered "s1", AddEvent.onconnect "s1"]
        ++ (if true then [AddEvent.ackCallback] else [])
        ++ [AddEvent.emitted "connect", AddEvent.emitted "connection"] ∧
    hasId (st0.addClient ⟨"open", 4⟩ "s1" true).1.sockets "s1" = true :=
  successful_admission_order st0 ⟨"open", 4⟩ "s1" true rfl rfl

/-- C4: when the transport is no longer open after the chain completes, the
admission is silently abandoned — no event at all is observed (no error
payload, no registration, no `_onconnect`, no notifications) and the
endpoints mapping is untouched, whether or not the chain erred. -/
theorem closed_transport_silently_ignored (st : NamespaceState) (client : ClientConn)
    (sid : SocketId) (hasFn : Bool)
    (hclosed : client.readyState ≠ "open") :
    (st.addClient client sid hasFn).2.2 = [] ∧
    (st.addClient client sid hasFn).1.sockets = st.sockets := by
  refine ⟨?_, ?_⟩ <;> simp [NamespaceState.addClient, hclosed, run_state_sockets]

/-- Witness for C4: a client whose transport reads `closed`, even with an
erroring chain, produces no event and no registration. -/
theorem closed_transport_silently_ignored_witness :
    (stErr.addClient ⟨"closed", 4⟩ "s1" true).2.2 = [] ∧
    (stErr.addClient ⟨"closed", 4⟩ "s1" true).1.sockets = stErr.sockets :=
  closed_transport_silently_ignored stErr ⟨"closed", 4⟩ "s1" true (by decide)

/-- C5 counterexample: the claim as stated says that on a protocol-3
transport the raw payload equals the data field of the error whenever it is
present; with a present but falsy data field (the empty string) the code
sends the message text instead. -/
theorem abort_error_payload_counterexample :
    (stFalsy.addClient ⟨"open", 3⟩ "s1" false).2.2 =
      [AddEvent.errorSent (ErrorPayload.raw (JSVal.str "auth failed"))] ∧
    ¬ (stFalsy.addClient ⟨"open", 3⟩ "s1" false).2.2 =
      [AddEvent.errorSent (ErrorPayload.raw (JSVal.str ""))] :=
  ⟨rfl, by decide⟩

/-- C5 (amended): on an admission aborted by a middleware error with the
transport open, a protocol-3 session receives a raw payload equal to the
data field of the error when present and truthy (JS truthiness, so e.g. a
non-empty string), otherwise its message text; any other protocol
receives the structured message/data payload; the endpoint is never
registered. -/
theorem abort_error_payload (st : NamespaceState) (client : ClientConn)
    (sid : SocketId) (hasFn : Bool) (e : ExtendedError)
    (hopen : client.readyState = "open")
    (herr : (st.run ⟨sid⟩).1 = some e) :
    (st.addClient client sid hasFn).2.2 =
      [AddEvent.errorSent
        (if client.protocol = 3 then
          ErrorPayload.raw
            (match e.data with
             | some d => if d.truthy then d else JSVal.str e.message
             | none => JSVal.str e.message)
         else ErrorPayload.structured e.message e.data)] ∧
    (st.addClient client sid hasFn).1.sockets = st.sockets := by
  rcases e with ⟨msg, data⟩
  by_cases hp : client.protocol = 3
  · cases data <;>
      simp [NamespaceState.addClient, hopen, herr, hp, jsOr, run_state_sockets]
  · simp [NamespaceState.addClient, hopen, herr, hp, run_state_sockets]

/-- Witness for the amended C5: the always-failing middleware with no data
field sends the raw message text on a protocol-3 transport and leaves the
endpoints mapping empty. -/
theorem abort_error_payload_witness :
    (stFail.addClient ⟨"open", 3⟩ "s1" false).2.2 =
      [AddEvent.errorSent
        (if (3 : Nat) = 3 then
          ErrorPayload.raw
            (match (none : Option JSVal) with
             | some d => if d.truthy then d else JSVal.str "auth failed"
             | none => JSVal.str "auth failed")
         else ErrorPayload.structured "auth failed" none)] ∧
    (stFail.addClient ⟨"open", 3⟩ "s1" false).1.sockets = stFail.sockets :=
  abort_error_payload stFail ⟨"open", 3⟩ "s1" false ⟨"auth failed", none⟩ rfl rfl

/-- C6: emitting any reserved event name through `emit` of the namespace is
rejected with an error before anything reaches the broadcast primitive of
the adapter; it is never forwarded as a broadcast. -/
theorem reserved_event_emit_rejected (st : NamespaceState) (ev : String)
    (args : List JSVal) (h : ev ∈ RESERVED_EVENTS) :
    st.emitNs ev args = Except.error (ev ++ " is a reserved event name") := by
  simp [NamespaceState.emitNs, BroadcastOperator.emitOp, h]

/-- Witness for C6: emitting `connect` on a namespace errors out. -/
theorem reserved_event_emit_rejected_witness :
    st0.emitNs "connect" [] = Except.error ("connect" ++ " is a reserved event name") :=
  reserved_event_emit_rejected st0 "connect" [] (by decide)

/-- C9: for every non-reserved event name and any argument list, `emit` on
the namespace succeeds returning `true`, whatever the adapter state and
however many endpoints match; the value never reflects delivery. -/
theorem emit_returns_true (st : NamespaceState) (ev : String) (args : List JSVal)
    (h : ev ∉ RESERVED_EVENTS) :
    st.emitNs ev args = Except.ok (true, [⟨ev, args, ∅, ∅, {}⟩]) := by
  simp [NamespaceState.emitNs, BroadcastOperator.emitOp, BroadcastOperator.fresh, h]

/-- Witness for C9: emitting `greet` on the empty namespace returns `true`
with a single untargeted broadcast. -/
theorem emit_returns_true_witness :
    st0.emitNs "greet" [] = Except.ok (true, [⟨"greet", [], ∅, ∅, {}⟩]) :=
  emit_returns_true st0 "greet" [] (by decide)

/-- C7: `_remove` is idempotent — removing an identifier not present in
the endpoints mapping leaves the whole namespace state exactly as it was,
and a second `_remove` for an already-removed identifier observably equals
a single call; the chain and the adapter are never touched. -/
theorem remove_idempotent (st : NamespaceState) (s : SocketV) :
    (hasId st.sockets s.id = false → st.removeSocket s = st) ∧
    (st.removeSocket s).removeSocket s = st.removeSocket s ∧
    (st.removeSocket s).fns = st.fns ∧
    (st.removeSocket s).adapter = st.adapter := by
  refine ⟨removeSocket_absent st s, ?_, ?_, ?_⟩
  · by_cases h : hasId st.sockets s.id
    · refine removeSocket_absent _ s ?_
      simp [NamespaceState.removeSocket, h, hasId_mapDelete]
    · rw [removeSocket_absent st s (by simpa using h)]
      exact removeSocket_absent st s (by simpa using h)
  · by_cases h : hasId st.sockets s.id <;> simp [NamespaceState.removeSocket, h]
  · by_cases h : hasId st.sockets s.id <;> simp [NamespaceState.removeSocket, h]

/-- A concrete endpoint session for the C7 witness. -/
def sock1 : SocketV := ⟨"s1"⟩

/-- A namespace holding exactly the endpoint `s1`. -/
def stS : NamespaceState := ⟨[("s1", sock1)], [], adapter0⟩

/-- Witness for C7: removing an absent identifier is the identity and a
second removal of `s1` equals the first. -/
theorem remove_idempotent_witness :
    stS.removeSocket ⟨"zz"⟩ = stS ∧
    (stS.removeSocket sock1).removeSocket sock1 = stS.removeSocket sock1 :=
  ⟨(remove_idempotent stS ⟨"zz"⟩).1 rfl, (remove_idempotent stS sock1).2.1⟩

/-- C8: every targeting or flag method of the namespace (`to`, `in`,
`except`, `compress`, `volatile`, `local`) leaves the namespace state
untouched and returns a fresh broadcast operator bound to the adapter of
the namespace carrying exactly the one requested targeting mutation or flag. -/
theorem targeting_methods_pure_and_fresh (st : NamespaceState) (rs : List Room) (b : Bool) :
    (st.toNs rs).1 = st ∧
    (st.toNs rs).2 = { adapter := st.adapter, rooms := rs.toFinset } ∧
    (st.inNs rs).1 = st ∧
    (st.inNs rs).2 = { adapter := st.adapter, rooms := rs.toFinset } ∧
    (st.exceptNs rs).1 = st ∧
    (st.exceptNs rs).2 = { adapter := st.adapter, exceptRooms := rs.toFinset } ∧
    (st.compressNs b).1 = st ∧
    (st.compressNs b).2 = { adapter := st.adapter, flags := { compress := some b } } ∧
    (st.volatileNs).1 = st ∧
    (st.volatileNs).2 = { adapter := st.adapter, flags := { volatile := true } } ∧
    (st.localNs).1 = st ∧
    (st.localNs).2 = { adapter := st.adapter, flags := { localFlag := true } } := by
  refine ⟨rfl, ?_, rfl, ?_, rfl, ?_, rfl, ?_, rfl, ?_, rfl, ?_⟩ <;>
    simp [NamespaceState.toNs, NamespaceState.inNs, NamespaceState.exceptNs,
      NamespaceState.compressNs, NamespaceState.volatileNs, NamespaceState.localNs,
      BroadcastOperator.fresh, BroadcastOperator.to, BroadcastOperator.inRooms,
      BroadcastOperator.except, BroadcastOperator.compress, BroadcastOperator.volatile,
      BroadcastOperator.localOp]

/-- Chaining preserves the bound adapter. -/
theorem applyCalls_adapter (op : BroadcastOperator) (cs : List TargetCall) :
    (applyCalls op cs).adapter = op.adapter := by
  induction cs generalizing op with
  | nil => rfl
  | cons c cs ih =>
    simp only [applyCalls]
    rw [ih]
    cases c <;> rfl

/-- Chaining accumulates the union of the `to`/`in` rooms. -/
theorem applyCalls_rooms (op : BroadcastOperator) (cs : List TargetCall) :
    (applyCalls op cs).rooms = op.rooms ∪ accRooms cs := by
  induction cs generalizing op with
  | nil => simp [applyCalls, accRooms]
  | cons c cs ih =>
    simp only [applyCalls]
    rw [ih]
    rcases c with rs | rs | rs <;>
      simp [applyCall, BroadcastOperator.to, BroadcastOperator.inRooms,
        BroadcastOperator.except, accRooms, Finset.union_assoc]

/-- Chaining accumulates the union of the `except` rooms. -/
theorem applyCalls_exceptRooms (op : BroadcastOperator) (cs : List TargetCall) :
    (applyCalls op cs).exceptRooms = op.exceptRooms ∪ accExcept cs := by
  induction cs generalizing op with
  | nil => simp [applyCalls, accExcept]
  | cons c cs ih =>
    simp only [applyCalls]
    rw [ih]
    rcases c with rs | rs | rs <;>
      simp [applyCall, BroadcastOperator.to, BroadcastOperator.inRooms,
        BroadcastOperator.except, accExcept, Finset.union_assoc]

/-- C3: for any chain of `to`/`in`/`except` calls starting from a fresh
operator, the matched endpoints are the members of at least one of the
accumulated target rooms (all endpoints of the namespace when no target
room accumulated), minus the members of any accumulated excluded room;
exclusion always wins over inclusion. -/
theorem broadcast_target_resolution (a : Adapter) (cs : List TargetCall) :
    (applyCalls (BroadcastOperator.fresh a) cs).matched =
      (if accRooms cs = ∅ then a.nspSockets
       else (accRooms cs).biUnion a.roomMembers) \
        (accExcept cs).biUnion a.roomMembers := by
  simp [BroadcastOperator.matched, applyCalls_adapter, applyCalls_rooms,
    applyCalls_exceptRooms, BroadcastOperator.fresh]
